import Mathlib

/-!
Verification of the fronty.js rendering core (src/js/lib/fronty.js).

The development shallowly embeds the parts of the library the claims are
about: the DOM tree diff/patch algorithm of `TreeComparator`, the observable
`Model`, the `Component` lifecycle, the `ModelComponent` observer wiring and
the `RouterComponent` route-query parsing.  DOM nodes are modelled as pure
trees (element and text nodes, the two kinds the algorithm distinguishes via
`Node.ELEMENT_NODE`); the `diff` recursion contains a while loop that does
not always make progress, so the diff engine is written with explicit fuel
and produces `none` when the fuel runs out.
-/

/-- An element attribute: a (name, value) pair, as in the DOM. -/
structure DAttr where
  name : String
  value : String
deriving DecidableEq, Repr

/-- A DOM node: either an element (tag name, attributes, child nodes)
or a text node carrying its `nodeValue`.  These are the node kinds
`TreeComparator` distinguishes (`nodeType === Node.ELEMENT_NODE` or not). -/
inductive DNode where
  | elem (tag : String) (attrs : List DAttr) (children : List DNode)
  | text (value : String)

/-- The node kind, mirroring `nodeType`. -/
inductive NodeKind where
  | element
  | textNode
deriving DecidableEq, Repr

/-- `node.nodeType`. -/
def DNode.nodeType : DNode → NodeKind
  | .elem _ _ _ => .element
  | .text _ => .textNode

/-- `node.tagName`: defined for elements, `undefined` (here `none`) for text. -/
def DNode.tagName : DNode → Option String
  | .elem t _ _ => some t
  | .text _ => none

/-- `node.nodeValue`: `null` for elements, the text for text nodes. -/
def DNode.nodeValue : DNode → Option String
  | .elem _ _ _ => none
  | .text v => some v

/-- `node.childNodes` (empty for text nodes). -/
def DNode.childNodes : DNode → List DNode
  | .elem _ _ cs => cs
  | .text _ => []

/-- `node.attributes`: a named map for elements, `undefined` for text nodes. -/
def DNode.attributes : DNode → Option (List DAttr)
  | .elem _ a _ => some a
  | .text _ => none

/-- `node.nodeType === Node.ELEMENT_NODE`. -/
def DNode.isElement : DNode → Bool
  | .elem _ _ _ => true
  | .text _ => false

/-- `element.getAttribute(name)`: the value of the first attribute with that
name, or `null` (`none`) when absent or when the node is not an element. -/
def DNode.getAttribute (n : DNode) (attrName : String) : Option String :=
  match n with
  | .elem _ attrs _ => (attrs.find? (fun a => a.name == attrName)).map (fun a => a.value)
  | .text _ => none

namespace TreeComparator

/-- A diff operation, one per `mode` pushed by `diff`/`_compareChildren`
(`toReplace`/`replacement` are the nodes stored in the patch object;
a missing `mode` means full subtree replacement). -/
inductive Patch where
  | replaceNode (toReplace : DNode) (replacement : DNode)
  | updateAttributes (toReplace : DNode) (replacement : DNode)
  | removeNode (toReplace : DNode)
  | insertNode (toReplace : DNode) (replacement : DNode) (beforePos : Nat)
  | appendChild (toReplace : DNode) (replacement : DNode)
  | swapNodes (toReplace : DNode) (replacement : DNode)

/-- Result of the optional compare-policy callback. -/
inductive PolicyAction where
  | SKIP
  | REPLACE
  | DIFF
deriving DecidableEq, Repr

/-- The `comparePolicy` callback type of `TreeComparator.diff`. -/
abbrev ComparePolicy := DNode → DNode → PolicyAction

/-- `TreeComparator._swapArrayElements(arr, indexA, indexB)`. -/
def swapArrayElements (arr : List DNode) (indexA indexB : Nat) : List DNode :=
  let temp := arr.getD indexA (.text "")
  let other := arr.getD indexB (.text "")
  (arr.set indexA other).set indexB temp

/-- One side of `TreeComparator._buildChildrenKeyIndex`: index the element
children carrying a (truthy, i.e. non-empty) `key` attribute by that key,
remembering their position.  A later child with the same key overwrites an
earlier one, which the prepend-and-first-lookup representation mirrors. -/
def buildKeyIndex (children : List DNode) : List (String × Nat) :=
  (children.foldl
    (fun (acc : List (String × Nat) × Nat) n =>
      match n.nodeType with
      | .element =>
        match n.getAttribute "key" with
        | some k => if k = "" then (acc.1, acc.2 + 1) else ((k, acc.2) :: acc.1, acc.2 + 1)
        | none => (acc.1, acc.2 + 1)
      | .textNode => (acc.1, acc.2 + 1))
    (([] : List (String × Nat)), 0)).1

/-- The JS `key in keyElementIndex` test (`getAttribute` may return `null`,
which is never a key of the index, since only truthy keys are indexed). -/
def keyMem (k : Option String) (idx : List (String × Nat)) : Bool :=
  match k with
  | some s => (idx.lookup s).isSome
  | none => false

/-- `keyElementIndex[key].pos` (only consulted when `keyMem` holds). -/
def keyPos (k : Option String) (idx : List (String × Nat)) : Nat :=
  match k with
  | some s => (idx.lookup s).getD 0
  | none => 0

/-- `TreeComparator._equalAttributes(node1, node2)`: positional comparison
of attribute names and values, after presence and length checks. -/
def attrPairsEqual : List DAttr → List DAttr → Bool
  | [], [] => true
  | _ :: _, [] => false
  | [], _ :: _ => false
  | x :: xs, y :: ys => x.name == y.name && x.value == y.value && attrPairsEqual xs ys

/-- `TreeComparator._equalAttributes` on nodes: text nodes have no
`attributes` object, elements always have one. -/
def equalAttributes (node1 node2 : DNode) : Bool :=
  match node1.attributes, node2.attributes with
  | none, some _ => false
  | some _, none => false
  | none, none => true
  | some a1, some a2 => if a1.length ≠ a2.length then false else attrPairsEqual a1 a2

/-- The context of `_compareChildren` that the while loop never mutates:
the parent `node1` (target of insert/append patches), the two original
child lists, and the two key indexes. -/
structure ChildCtx where
  node1 : DNode
  n1c : List DNode
  n2c : List DNode
  idx1 : List (String × Nat)
  idx2 : List (String × Nat)

/-- The mutable state of the `_compareChildren` while loop: the two cursors,
the insertion/deletion counters, and `child1Array` (the copied child list
that `_swapArrayElements` rearranges). -/
structure ChildSt where
  child1pos : Nat
  child2pos : Nat
  insertions : Nat
  deletions : Nat
  child1Array : List DNode

/-- A pending computation of the diff engine: either a `diff(node1, node2,
comparePolicy)` call or one iteration of the `_compareChildren` while loop. -/
inductive Req where
  | diffReq (node1 node2 : DNode) (pol : Option ComparePolicy)
  | loopReq (ctx : ChildCtx) (pol : Option ComparePolicy) (st : ChildSt)

/-- The fuelled diff engine.  `run fuel (.diffReq n1 n2 pol)` is
`TreeComparator.diff(n1, n2, pol)` and `run fuel (.loopReq ...)` is the
`_compareChildren` while loop from a given state; both answer `none` when
the fuel is exhausted (the JS loop can genuinely fail to terminate, see the
swap branch, so a fuelled presentation is forced).  Every recursive call
spends one unit of fuel. -/
def run : Nat → Req → Option (List Patch)
  | 0, _ => none
  | fuel + 1, .diffReq node1 node2 pol =>
    -- body of TreeComparator.diff (the node1 === null guard cannot fire
    -- here: DNode has no null inhabitant, and diff recursion only passes
    -- real child nodes)
    let core : Option (List Patch) :=
      if node1.tagName ≠ node2.tagName ∨ node1.nodeType ≠ node2.nodeType ∨
          (node1.nodeValue ≠ none ∧ node2.nodeValue ≠ none ∧
            node1.nodeValue ≠ node2.nodeValue) then
        some [Patch.replaceNode node1 node2]
      else
        let childPart :=
          if 0 < node1.childNodes.length ∨ 0 < node2.childNodes.length then
            -- body of _compareChildren: build both key indexes, copy the
            -- children to child1Array, start both cursors and counters at 0
            run fuel (.loopReq
              ⟨node1, node1.childNodes, node2.childNodes,
                buildKeyIndex node1.childNodes, buildKeyIndex node2.childNodes⟩
              pol ⟨0, 0, 0, 0, node1.childNodes⟩)
          else some []
        childPart.bind fun cps =>
          some (cps ++ if equalAttributes node1 node2 then []
                       else [Patch.updateAttributes node1 node2])
    match pol with
    | some p =>
      match p node1 node2 with
      | .SKIP => some []
      | .REPLACE => some [Patch.replaceNode node1 node2]
      | .DIFF => core
    | none => core
  | fuel + 1, .loopReq ctx pol st =>
    if st.child1pos < ctx.n1c.length ∧ st.child2pos < ctx.n2c.length then
      let child1 := st.child1Array.getD st.child1pos (.text "")
      let child2 := ctx.n2c.getD st.child2pos (.text "")
      if child1.isElement = false ∧ child2.isElement = true then
        -- non-element on the left, element on the right: remove child1
        (run fuel (.loopReq ctx pol
          { st with child1pos := st.child1pos + 1, deletions := st.deletions + 1 })).bind
          fun rest => some (Patch.removeNode child1 :: rest)
      else if child1.isElement = true ∧ child2.isElement = false then
        -- element on the left, non-element on the right: insert child2
        (run fuel (.loopReq ctx pol
          { st with child2pos := st.child2pos + 1, insertions := st.insertions + 1 })).bind
          fun rest => some (Patch.insertNode ctx.node1 child2
            (st.child1pos + st.insertions - st.deletions) :: rest)
      else if child1.isElement = false ∧ child2.isElement = false then
        -- two non-element nodes: recurse
        (run fuel (.diffReq child1 child2 pol)).bind fun sub =>
          (run fuel (.loopReq ctx pol
            { st with child1pos := st.child1pos + 1, child2pos := st.child2pos + 1 })).bind
            fun rest => some (sub ++ rest)
      else
        let key1 := child1.getAttribute "key"
        let key2 := child2.getAttribute "key"
        if key1 ≠ key2 then
          if keyMem key1 ctx.idx2 = true ∧ keyMem key2 ctx.idx1 = true then
            -- both keys present on both sides: emit a swap against the node
            -- at the ORIGINAL position recorded in the key index, swap the
            -- array copy, and loop without advancing either cursor
            let swapPos := keyPos key2 ctx.idx1
            (run fuel (.loopReq ctx pol
              { st with child1Array := swapArrayElements st.child1Array st.child1pos swapPos })).bind
              fun rest => some (Patch.swapNodes child1 (ctx.n1c.getD swapPos (.text "")) :: rest)
          else
            -- a key missing on one side: insert the new key and/or remove
            -- the vacated one (both conditions are checked in sequence)
            let afterIns :=
              if keyMem key2 ctx.idx1 = false then
                (([Patch.insertNode ctx.node1 child2
                    (st.child1pos + st.insertions - st.deletions)] : List Patch),
                  { st with insertions := st.insertions + 1, child2pos := st.child2pos + 1 })
              else (([] : List Patch), st)
            let afterRem :=
              if keyMem key1 ctx.idx2 = false then
                (afterIns.1 ++ [Patch.removeNode child1],
                  { afterIns.2 with child1pos := afterIns.2.child1pos + 1,
                                    deletions := afterIns.2.deletions + 1 })
              else afterIns
            (run fuel (.loopReq ctx pol afterRem.2)).bind fun rest =>
              some (afterRem.1 ++ rest)
        else
          -- equal keys (including both null): recurse and advance together
          (run fuel (.diffReq child1 child2 pol)).bind fun sub =>
            (run fuel (.loopReq ctx pol
              { st with child1pos := st.child1pos + 1, child2pos := st.child2pos + 1 })).bind
              fun rest => some (sub ++ rest)
    else
      -- after the while loop: trailing removals or trailing appends
      if st.child1pos < ctx.n1c.length then
        some ((List.range' st.child1pos (ctx.n1c.length - st.child1pos)).map
          fun i => Patch.removeNode (ctx.n1c.getD i (.text "")))
      else if st.child2pos < ctx.n2c.length then
        some ((List.range' st.child2pos (ctx.n2c.length - st.child2pos)).map
          fun i => Patch.appendChild ctx.node1 (ctx.n2c.getD i (.text "")))
      else some []

/-- `TreeComparator.diff(node1, node2, comparePolicy)`, with fuel. -/
def diff (fuel : Nat) (node1 node2 : DNode) (pol : Option ComparePolicy) :
    Option (List Patch) :=
  run fuel (.diffReq node1 node2 pol)

/-- `TreeComparator._compareChildren(node1, node2, comparePolicy, result)`,
with fuel: builds the key indexes and runs the while loop from the start. -/
def compareChildren (fuel : Nat) (node1 node2 : DNode) (pol : Option ComparePolicy) :
    Option (List Patch) :=
  run fuel (.loopReq
    ⟨node1, node1.childNodes, node2.childNodes,
      buildKeyIndex node1.childNodes, buildKeyIndex node2.childNodes⟩
    pol ⟨0, 0, 0, 0, node1.childNodes⟩)

end TreeComparator

mutual
/-- Fuel sufficient to diff a node against itself (one unit for the
`diff` call, plus the fuel of the child loop). -/
def nodeFuel : DNode → Nat
  | .text _ => 1
  | .elem _ _ cs => 1 + listFuel cs
/-- Fuel sufficient to run the `_compareChildren` loop over the remaining
children: one unit per loop iteration plus each child's own fuel, and one
unit for the final iteration that leaves the loop. -/
def listFuel : List DNode → Nat
  | [] => 1
  | c :: rest => 1 + nodeFuel c + listFuel rest
end

namespace TreeComparator

/-- A keyed list item `<li key="k">`, as in the spec's keyed-children
scenarios. -/
def liNode (k : String) : DNode := .elem "li" [⟨"key", k⟩] []

/-- `<ul>` with keyed children a, b, c. -/
def ulABC : DNode := .elem "ul" [] [liNode "a", liNode "b", liNode "c"]

/-- `<ul>` with the same keyed children rotated to c, a, b (a 3-cycle). -/
def ulCAB : DNode := .elem "ul" [] [liNode "c", liNode "a", liNode "b"]

/-- The `_compareChildren` context for diffing `ulABC` against `ulCAB`. -/
def c2ctx : ChildCtx :=
  ⟨ulABC, ulABC.childNodes, ulCAB.childNodes,
    buildKeyIndex ulABC.childNodes, buildKeyIndex ulCAB.childNodes⟩

/-- The initial loop state for `c2ctx`. -/
def c2S0 : ChildSt := ⟨0, 0, 0, 0, ulABC.childNodes⟩

/-- The loop state after the first swap (a moved to the end). -/
def c2S1 : ChildSt := ⟨0, 0, 0, 0, [liNode "c", liNode "b", liNode "a"]⟩

/-- The loop state after the matching c advanced both cursors; from here the
loop oscillates between this state and `c2S3` forever. -/
def c2S2 : ChildSt := ⟨1, 1, 0, 0, [liNode "c", liNode "b", liNode "a"]⟩

/-- The other state of the oscillation: the stale key index still maps key a
to position 0, so the swap exchanges positions 1 and 0 back and forth. -/
def c2S3 : ChildSt := ⟨1, 1, 0, 0, [liNode "b", liNode "c", liNode "a"]⟩

/-- A keyed `<span key="k">`. -/
def spanNode (k : String) : DNode := .elem "span" [⟨"key", k⟩] []

/-- `<div>` with keyed span children x, y, z. -/
def divXYZ : DNode := .elem "div" [] [spanNode "x", spanNode "y", spanNode "z"]

/-- `<div>` with the same keyed children rotated to z, x, y. -/
def divZXY : DNode := .elem "div" [] [spanNode "z", spanNode "x", spanNode "y"]

/-- The `_compareChildren` context reached by `diff divXYZ divZXY`. -/
def c1ctx : ChildCtx :=
  ⟨divXYZ, divXYZ.childNodes, divZXY.childNodes,
    buildKeyIndex divXYZ.childNodes, buildKeyIndex divZXY.childNodes⟩

/-- The initial loop state for `c1ctx`. -/
def c1S0 : ChildSt := ⟨0, 0, 0, 0, divXYZ.childNodes⟩

/-- The loop state after the first swap. -/
def c1S1 : ChildSt := ⟨0, 0, 0, 0, [spanNode "z", spanNode "y", spanNode "x"]⟩

/-- First state of the endless oscillation for `c1ctx`. -/
def c1S2 : ChildSt := ⟨1, 1, 0, 0, [spanNode "z", spanNode "y", spanNode "x"]⟩

/-- Second state of the endless oscillation for `c1ctx`. -/
def c1S3 : ChildSt := ⟨1, 1, 0, 0, [spanNode "y", spanNode "z", spanNode "x"]⟩

end TreeComparator

/-!
## Model (fronty.js `class Model`)

Observers are JS function objects compared by identity (`indexOf` in
`removeObserver`).  `ORef` models those identities: an ordinary observer
function, a component object (what `ModelComponent.stop` mistakenly passes
to `removeObserver`), or the fresh function object that a call
`this.update.bind(this)` allocates (a new object on every call, identified
here by the allocation counter of its component).
-/

/-- Identity of a value registered (or passed) as a model observer. -/
inductive ORef where
  | fnRef (id : Nat)
  | compRef (compId : Nat)
  | boundUpdate (compId : Nat) (alloc : Nat)
deriving DecidableEq, Repr

/-- `class Model`: a name, the observer list, and the user data that the
application stores on the model object (modelled by a single `state` field
of an arbitrary type). -/
structure Model (σ : Type) where
  name : String
  observers : List ORef
  state : σ

/-- One observable event of a `Model.set` call: the mutator finishing with
the new model state, or one observer invocation `observer(this, hint)`
(recording which observer, the model state it sees, and the hint). -/
inductive MEvent (σ η : Type) where
  | mutate (state : σ)
  | notify (observer : ORef) (modelState : σ) (hint : η)
deriving DecidableEq, Repr

namespace Model

/-- `Model.addObserver(observer)`: `this.observers.push(observer)`, no
duplicate check. -/
def addObserver (m : Model σ) (o : ORef) : Model σ :=
  { m with observers := m.observers ++ [o] }

/-- `Model.removeObserver(observer)`: if `indexOf(observer) != -1`, splice
out that single (first) occurrence; otherwise do nothing. -/
def removeObserver (m : Model σ) (o : ORef) : Model σ :=
  if m.observers.contains o then { m with observers := m.observers.erase o } else m

/-- `Model.notifyObservers(hint)`: call `observer(this, hint)` for every
entry of the observer list, in list order; as a pure value, the list of
notification events produced. -/
def notifyObservers (m : Model σ) (hint : η) : List (MEvent σ η) :=
  m.observers.map fun o => MEvent.notify o m.state hint

/-- `Model.set(update, hint)`: run `update(this)` to completion, then
`notifyObservers(hint)`.  Returns the updated model and the ordered event
trace (the completed mutation first, then the notifications). -/
def set (m : Model σ) (update : σ → σ) (hint : η) : Model σ × List (MEvent σ η) :=
  let updated := { m with state := update m.state }
  (updated, MEvent.mutate updated.state :: notifyObservers updated hint)

end Model

/-- Does this event notify observer `o`? -/
def isNotifyTo (o : ORef) : MEvent σ η → Bool
  | .notify o2 _ _ => o2 == o
  | .mutate _ => false

/-!
## Component lifecycle (fronty.js `class Component`, `stop()`)

For the stop path only the stopped flag, the child list and the `onStop`
hook are relevant; `Comp` carries exactly those (plus an id so hook events
can name their component).
-/

/-- A component as seen by `stop()`: its id, its `stopped` flag and its
child components. -/
inductive Comp where
  | node (cid : Nat) (stopped : Bool) (children : List Comp)

/-- A lifecycle hook side effect. -/
inductive CEvent where
  | onStop (cid : Nat)
deriving DecidableEq, Repr

mutual
/-- `Component.stop()`: if not yet stopped, set the flag and stop every
child; then (unconditionally) fire the `onStop` hook.  Returns the new
component and the ordered hook events. -/
def compStop : Comp → Comp × List CEvent
  | .node cid stopped children =>
    if stopped = false then
      let r := compStopList children
      (.node cid true r.1, r.2 ++ [CEvent.onStop cid])
    else
      (.node cid stopped children, [CEvent.onStop cid])
/-- `this.childComponents.forEach((child) => child.stop())`. -/
def compStopList : List Comp → List Comp × List CEvent
  | [] => ([], [])
  | c :: cs =>
    let r1 := compStop c
    let r2 := compStopList cs
    (r1.1 :: r2.1, r1.2 ++ r2.2)
end

/-!
## ModelComponent observer wiring (fronty.js `class ModelComponent`)

`start()` registers `this.update.bind(this)` — a fresh function object — as
observer on every held model; `stop()` calls `model.removeObserver(this)`,
passing the component object itself.  Modelled for a component holding a
single model and no children (children and rendering do not touch the
model's observer list).
-/

/-- The `ModelComponent` state relevant to observer wiring: its identity,
its `stopped` flag, and a counter giving each `bind()` result a fresh
identity. -/
structure ModelComponent where
  compId : Nat
  stopped : Bool
  nextBindAlloc : Nat

namespace ModelComponent

/-- `ModelComponent.start()`: if stopped, `model.addObserver(this.update.bind(this))`
for the held model, then `super.start()` (which clears the stopped flag). -/
def start (c : ModelComponent) (m : Model σ) : ModelComponent × Model σ :=
  if c.stopped then
    ({ c with stopped := false, nextBindAlloc := c.nextBindAlloc + 1 },
      Model.addObserver m (ORef.boundUpdate c.compId c.nextBindAlloc))
  else (c, m)

/-- `ModelComponent.stop()`: if not stopped, `model.removeObserver(this)` —
note: `this` is the component object, not the bound update function that
`start()` registered — then `super.stop()` (which sets the stopped flag). -/
def stop (c : ModelComponent) (m : Model σ) : ModelComponent × Model σ :=
  if c.stopped = false then
    ({ c with stopped := true }, Model.removeObserver m (ORef.compRef c.compId))
  else (c, m)

end ModelComponent

/-- A model with no observers yet, holding a unit of application data. -/
def c6Model : Model Nat := ⟨"posts", [], 0⟩

/-- A stopped `ModelComponent` with id 7 that holds `c6Model`. -/
def c6Comp : ModelComponent := ⟨7, true, 0⟩

/-!
## Component.render single-root check (fronty.js `Component.render`,
`Component._doRender`)

`_doRender` first applies its guards (reentrancy, stopped, no node id, node
absent from the document); only then the renderer output is parsed into a
dummy `<div>` and render throws if that div has more than one child node.
The renderer output is modelled post-parse, as the list of root nodes the
markup parses to (the HTML parser itself is a host facility).
-/

/-- The component state consulted by `render()`/`_doRender()`. -/
structure RenderComp where
  rendering : Bool
  stopped : Bool
  htmlNodeId : Option String
  nodeInDocument : Bool
  rendererRoots : List DNode

/-- Outcome of a `render()` call: silently skipped by a guard, failed with
a thrown error, or proceeding with the single root element. -/
inductive RenderOutcome where
  | skipped
  | failed (msg : String)
  | rendered (newRoot : DNode)

/-- `Component.render()` up to the single-root check: the `_doRender`
guards return silently; a multi-root renderer result throws; otherwise
rendering continues with the unique root (reconciliation is performed by
`TreeComparator`, modelled above). -/
def renderStep (c : RenderComp) : RenderOutcome :=
  if c.rendering = true then .skipped
  else if c.stopped = true ∨ c.htmlNodeId = none ∨ c.nodeInDocument = false then .skipped
  else if c.rendererRoots.length > 1 then
    .failed "Rendering function MUST return a tree with a single root element"
  else .rendered (c.rendererRoots.getD 0 (.text ""))

/-!
## RouterComponent.getRouteQueryParam (fronty.js `RouterComponent`)

`getRouteQueryParam(name)` first reduces the location fragment to its
route-scoped query string via
`window.location.hash.replace(/#[^\?]*(\?.*)/, "$1")`, then matches the
regular expression `[?&]name(=([^&#]*)|&|#|$)` against it, exactly as the
source builds it.  Both regular expressions are modelled directly on
character lists with JS semantics (leftmost match, alternatives tried in
order, greedy character classes).
-/

namespace RouterComponent

/-- Is there a question mark anywhere in the remaining characters? -/
def containsQuestion : List Char → Bool
  | [] => false
  | c :: rest => c == '?' || containsQuestion rest

/-- The suffix starting at the first question mark (inclusive). -/
def fromFirstQuestion : List Char → List Char
  | [] => []
  | c :: rest => if c = '?' then c :: rest else fromFirstQuestion rest

/-- `hash.replace(/#[^\?]*(\?.*)/, "$1")`: the first `#` that has some
later `?` starts the (unique) match, which runs to the end of the string
and is replaced by its group 1, i.e. everything from the first `?` after
that `#`; if no such match exists the string is unchanged. -/
def replaceHashQuery : List Char → List Char
  | [] => []
  | c :: rest =>
    if c = '#' ∧ containsQuestion rest = true then fromFirstQuestion rest
    else c :: replaceHashQuery rest

/-- Matching `[?&]name(=([^&#]*)|&|#|$)` against the query string, for a
literal parameter name (the source escapes only square brackets in the
name, which then match literally; other regex metacharacters in a name are
outside this model).  Returns `none` when there is no match, `some none`
when the match has no captured group 2 (the `&`, `#` or end-of-string
alternatives), and `some (some v)` when `=` captured the value `v`. -/
def findParam (pname : List Char) : List Char → Option (Option (List Char))
  | [] => none
  | c :: rest =>
    if (c = '?' ∨ c = '&') ∧ pname.isPrefixOf rest = true then
      match rest.drop pname.length with
      | '=' :: tail => some (some (tail.takeWhile fun d => !(d == '&') && !(d == '#')))
      | '&' :: _ => some none
      | '#' :: _ => some none
      | [] => some none
      | _ :: _ => findParam pname rest
    else findParam pname rest

/-- The numeric value of a hexadecimal digit. -/
def hexVal (c : Char) : Option Nat :=
  if '0' ≤ c ∧ c ≤ '9' then some (c.toNat - '0'.toNat)
  else if 'a' ≤ c ∧ c ≤ 'f' then some (c.toNat - 'a'.toNat + 10)
  else if 'A' ≤ c ∧ c ≤ 'F' then some (c.toNat - 'A'.toNat + 10)
  else none

/-- The host `decodeURIComponent`, modelled for ASCII percent escapes
(the claimed inputs contain none; the builtin's exception behaviour on
malformed input is outside this model, malformed escapes are kept). -/
def percentDecode : List Char → List Char
  | [] => []
  | '%' :: a :: b :: rest =>
    match hexVal a, hexVal b with
    | some ha, some hb => Char.ofNat (16 * ha + hb) :: percentDecode rest
    | _, _ => '%' :: percentDecode (a :: b :: rest)
  | c :: rest => c :: percentDecode rest

/-- `results[2].replace(/\+/g, " ")`. -/
def plusToSpace (l : List Char) : List Char :=
  l.map fun c => if c = '+' then ' ' else c

/-- `RouterComponent.getRouteQueryParam(name)` against a given
`window.location.hash` value: `null` when the regex does not match, the
empty string when the parameter has no (or an empty) value, and the
decoded value otherwise. -/
def getRouteQueryParam (pname : String) (hash : String) : Option String :=
  let queryString := replaceHashQuery hash.toList
  match findParam pname.toList queryString with
  | none => none
  | some none => some ""
  | some (some v) =>
    if v.isEmpty then some ""
    else some (String.mk (percentDecode (plusToSpace v)))

end RouterComponent

/-!
# Theorems
-/

theorem nodeFuel_pos (t : DNode) : 1 ≤ nodeFuel t := by
  cases t <;> simp [nodeFuel]

theorem listFuel_pos (l : List DNode) : 1 ≤ listFuel l := by
  cases l with
  | nil => simp [listFuel]
  | cons c rest => simp [listFuel]; omega

namespace TreeComparator

theorem attrPairsEqual_self (l : List DAttr) : attrPairsEqual l l = true := by
  induction l with
  | nil => rfl
  | cons x xs ih => simp [attrPairsEqual, ih]

theorem equalAttributes_self (n : DNode) : equalAttributes n n = true := by
  cases n with
  | text v => rfl
  | elem t a cs => simp [equalAttributes, DNode.attributes, attrPairsEqual_self]

/-- When diffing any node against itself (and hence any tree against a
structurally identical copy), both the `diff` call and the
`_compareChildren` loop produce no operations, given enough fuel. -/
theorem run_self (fuel : Nat) :
    (∀ t : DNode, nodeFuel t ≤ fuel → run fuel (.diffReq t t none) = some []) ∧
    (∀ (node1 : DNode) (l : List DNode) (idx1 idx2 : List (String × Nat)) (p ins del : Nat),
      listFuel (l.drop p) ≤ fuel →
      run fuel (.loopReq ⟨node1, l, l, idx1, idx2⟩ none ⟨p, p, ins, del, l⟩) = some []) := by
  induction fuel with
  | zero =>
    constructor
    · intro t h
      have := nodeFuel_pos t
      omega
    · intro n1 l i1 i2 p ins del h
      have := listFuel_pos (l.drop p)
      omega
  | succ m ih =>
    constructor
    · intro t h
      cases t with
      | text v =>
        simp [run, DNode.tagName, DNode.nodeType, DNode.nodeValue, DNode.childNodes,
          equalAttributes, DNode.attributes]
      | elem tag attrs cs =>
        have hfuel : nodeFuel (.elem tag attrs cs) = 1 + listFuel cs := by
          simp [nodeFuel]
        cases cs with
        | nil =>
          simp [run, DNode.tagName, DNode.nodeType, DNode.nodeValue, DNode.childNodes,
            equalAttributes, DNode.attributes, attrPairsEqual_self]
        | cons c rest =>
          have hloop := ih.2 (.elem tag attrs (c :: rest)) (c :: rest)
            (buildKeyIndex (c :: rest)) (buildKeyIndex (c :: rest)) 0 0 0
            (by rw [List.drop_zero]; omega)
          simp only [run, DNode.tagName, DNode.nodeType, DNode.nodeValue, DNode.childNodes]
          simp only [ne_eq, not_true_eq_false, false_or, false_and, and_false, or_false,
            if_false, List.length_cons, Nat.zero_lt_succ, true_or, if_true,
            reduceCtorEq, not_false_eq_true]
          rw [hloop]
          simp [equalAttributes_self]
    · intro n1 l i1 i2 p ins del h
      by_cases hp : p < l.length
      · have hdrop : l.drop p = l.getD p (.text "") :: l.drop (p + 1) := by
          rw [List.getD_eq_getElem l _ hp]
          exact List.drop_eq_getElem_cons hp
        have hfuel : listFuel (l.drop p) =
            1 + nodeFuel (l.getD p (.text "")) + listFuel (l.drop (p + 1)) := by
          rw [hdrop]; simp [listFuel]
        have hnf : nodeFuel (l.getD p (.text "")) ≤ m := by
          have := listFuel_pos (l.drop (p + 1))
          omega
        have hlf : listFuel (l.drop (p + 1)) ≤ m := by
          have := nodeFuel_pos (l.getD p (.text ""))
          omega
        have hdiff := ih.1 (l.getD p (.text "")) hnf
        have hrest := ih.2 n1 l i1 i2 (p + 1) ins del hlf
        cases hc : l.getD p (.text "") with
        | text v =>
          rw [hc] at hdiff
          simp only [run]
          rw [if_pos ⟨hp, hp⟩]
          simp only [hc, DNode.isElement]
          simp only [Bool.false_eq_true, and_false, false_and, if_false, and_self, if_true]
          rw [hdiff, hrest]
          rfl
        | elem tg ats cs2 =>
          rw [hc] at hdiff
          simp only [run]
          rw [if_pos ⟨hp, hp⟩]
          simp only [hc, DNode.isElement]
          simp only [Bool.true_eq_false, Bool.false_eq_true, and_false, false_and,
            if_false, and_self, if_true]
          rw [if_neg (by simp)]
          rw [hdiff, hrest]
          rfl
      · simp only [run]
        rw [if_neg (by omega)]
        rw [if_neg hp, if_neg hp]

/-- C3: for every DOM tree, `TreeComparator.diff` applied to the tree and a
structurally identical copy of it (same tags, node kinds, text values,
children and attributes throughout — i.e. the same value of `DNode`)
returns the empty operation list. -/
theorem diff_identical_copy_is_empty (t : DNode) :
    diff (nodeFuel t) t t none = some [] :=
  (run_self (nodeFuel t)).1 t (Nat.le_refl _)

theorem c2_step01 (m : Nat) :
    run (m + 1) (.loopReq c2ctx none c2S0) =
      (run m (.loopReq c2ctx none c2S1)).bind
        (fun rest => some (Patch.swapNodes (liNode "a") (liNode "c") :: rest)) := rfl

theorem c2_step12 (m : Nat) :
    run (m + 1) (.loopReq c2ctx none c2S1) =
      (run m (.diffReq (liNode "c") (liNode "c") none)).bind fun sub =>
        (run m (.loopReq c2ctx none c2S2)).bind fun rest => some (sub ++ rest) := rfl

theorem c2_diff_li_self (m : Nat) :
    run (m + 1) (.diffReq (liNode "c") (liNode "c") none) = some [] := rfl

theorem c2_step23 (m : Nat) :
    run (m + 1) (.loopReq c2ctx none c2S2) =
      (run m (.loopReq c2ctx none c2S3)).bind
        (fun rest => some (Patch.swapNodes (liNode "b") (liNode "a") :: rest)) := rfl

theorem c2_step32 (m : Nat) :
    run (m + 1) (.loopReq c2ctx none c2S3) =
      (run m (.loopReq c2ctx none c2S2)).bind
        (fun rest => some (Patch.swapNodes (liNode "c") (liNode "a") :: rest)) := rfl

/-- The `_compareChildren` loop oscillates forever between `c2S2` and
`c2S3`: the key index records the original position of key a, which the
first swap made stale, so each "swap" exchanges positions 1 and 0 and the
cursor never advances. -/
theorem c2_cycle (m : Nat) :
    run m (.loopReq c2ctx none c2S2) = none ∧
      run m (.loopReq c2ctx none c2S3) = none := by
  induction m with
  | zero => exact ⟨rfl, rfl⟩
  | succ m ih =>
    refine ⟨?_, ?_⟩
    · rw [c2_step23, ih.2]; rfl
    · rw [c2_step32, ih.1]; rfl

theorem c2_loop_S1 (m : Nat) : run m (.loopReq c2ctx none c2S1) = none := by
  match m with
  | 0 => rfl
  | 1 => rfl
  | m + 2 =>
    rw [c2_step12, c2_diff_li_self, (c2_cycle (m + 1)).1]
    rfl

theorem c2_loop_S0 (m : Nat) : run m (.loopReq c2ctx none c2S0) = none := by
  match m with
  | 0 => rfl
  | m + 1 => rw [c2_step01, c2_loop_S1]; rfl

/-- C2 (evaluation at the failing input): reconciling the keyed children
a, b, c against their 3-cycle permutation c, a, b makes the
`_compareChildren` while loop run forever — for every amount of fuel the
loop is still running, so no operation list (neither swaps nor
remove/insert pairs) is ever produced.  The claimed all-permutations
guarantee therefore fails, although the concrete transposition scenario
of the spec does hold (see `compareChildren_transposition_single_swap`). -/
theorem compareChildren_three_cycle_diverges (fuel : Nat) :
    compareChildren fuel ulABC ulCAB none = none :=
  c2_loop_S0 fuel

/-- The spec's concrete scenario, which does hold: children a, b, c against
b, a, c yield exactly one swap operation (a, b) and no other operation. -/
theorem compareChildren_transposition_single_swap :
    compareChildren 10 (.elem "ul" [] [liNode "a", liNode "b", liNode "c"])
        (.elem "ul" [] [liNode "b", liNode "a", liNode "c"]) none =
      some [Patch.swapNodes (liNode "a") (liNode "b")] := rfl

theorem c1_step01 (m : Nat) :
    run (m + 1) (.loopReq c1ctx none c1S0) =
      (run m (.loopReq c1ctx none c1S1)).bind
        (fun rest => some (Patch.swapNodes (spanNode "x") (spanNode "z") :: rest)) := rfl

theorem c1_step12 (m : Nat) :
    run (m + 1) (.loopReq c1ctx none c1S1) =
      (run m (.diffReq (spanNode "z") (spanNode "z") none)).bind fun sub =>
        (run m (.loopReq c1ctx none c1S2)).bind fun rest => some (sub ++ rest) := rfl

theorem c1_diff_span_self (m : Nat) :
    run (m + 1) (.diffReq (spanNode "z") (spanNode "z") none) = some [] := rfl

theorem c1_step23 (m : Nat) :
    run (m + 1) (.loopReq c1ctx none c1S2) =
      (run m (.loopReq c1ctx none c1S3)).bind
        (fun rest => some (Patch.swapNodes (spanNode "y") (spanNode "x") :: rest)) := rfl

theorem c1_step32 (m : Nat) :
    run (m + 1) (.loopReq c1ctx none c1S3) =
      (run m (.loopReq c1ctx none c1S2)).bind
        (fun rest => some (Patch.swapNodes (spanNode "z") (spanNode "x") :: rest)) := rfl

/-- As `c2_cycle`, for the trees of claim C1. -/
theorem c1_cycle (m : Nat) :
    run m (.loopReq c1ctx none c1S2) = none ∧
      run m (.loopReq c1ctx none c1S3) = none := by
  induction m with
  | zero => exact ⟨rfl, rfl⟩
  | succ m ih =>
    refine ⟨?_, ?_⟩
    · rw [c1_step23, ih.2]; rfl
    · rw [c1_step32, ih.1]; rfl

theorem c1_loop_S1 (m : Nat) : run m (.loopReq c1ctx none c1S1) = none := by
  match m with
  | 0 => rfl
  | 1 => rfl
  | m + 2 =>
    rw [c1_step12, c1_diff_span_self, (c1_cycle (m + 1)).1]
    rfl

theorem c1_loop_S0 (m : Nat) : run m (.loopReq c1ctx none c1S0) = none := by
  match m with
  | 0 => rfl
  | m + 1 => rw [c1_step01, c1_loop_S1]; rfl

theorem c1_diff_step (m : Nat) :
    run (m + 1) (.diffReq divXYZ divZXY none) =
      (run m (.loopReq c1ctx none c1S0)).bind (fun cps => some (cps ++ [])) := rfl

/-- C1 (evaluation at the failing input): for the trees `divXYZ` and
`divZXY` (keyed children x, y, z against their 3-cycle permutation
z, x, y), `TreeComparator.diff` never returns for any amount of fuel: the
child-reconciliation loop repeats the same two states forever.  Hence no
"full ordered operation list produced by diff(A, B)" exists to hand to
`applyPatches`, and applying the patches can never reproduce B. -/
theorem diff_three_cycle_never_returns (fuel : Nat) :
    diff fuel divXYZ divZXY none = none := by
  match fuel with
  | 0 => rfl
  | m + 1 => rw [diff, c1_diff_step, c1_loop_S0]; rfl

end TreeComparator


/-- C4: `Model.set(mutator, hint)` invokes the mutator synchronously and
runs it to completion before any observer is invoked — the first trace
event is the completed mutation and all notifications come after it — and
then notifies every registered observer exactly once, in the order the
observers were registered, each receiving the (mutated) model and the
hint. -/
theorem model_set_mutator_first_then_observers_in_order (σ η : Type)
    (m : Model σ) (f : σ → σ) (hint : η) :
    (Model.set m f hint).2.head? = some (MEvent.mutate (f m.state)) ∧
    (Model.set m f hint).2.tail =
      m.observers.map (fun o => MEvent.notify o (f m.state) hint) ∧
    (Model.set m f hint).1.state = f m.state ∧
    (Model.set m f hint).1.observers = m.observers := by
  simp [Model.set, Model.notifyObservers]

theorem countP_isNotifyTo_map {σ η : Type} (o : ORef) (s : σ) (hint : η) (l : List ORef) :
    ((l.map fun o2 => MEvent.notify o2 s hint).countP (isNotifyTo o)) = l.count o := by
  rw [List.countP_map]
  rfl

/-- C9: `Model.addObserver` appends without checking for duplicates, so
registering the same observer twice makes it appear twice in the observer
list and one `set()` call notifies it twice; a single `removeObserver`
call removes only the first occurrence, leaving the observer subscribed
once. -/
theorem duplicate_observer_notified_twice_removed_once
    (m : Model Nat) (o : ORef) (hint : Unit) (h : o ∉ m.observers) :
    (Model.addObserver (Model.addObserver m o) o).observers.count o = 2 ∧
    (Model.set (Model.addObserver (Model.addObserver m o) o) (fun s => s) hint).2.countP
      (isNotifyTo o) = 2 ∧
    (Model.removeObserver (Model.addObserver (Model.addObserver m o) o) o).observers.count o = 1 := by
  have hcount : m.observers.count o = 0 := List.count_eq_zero_of_not_mem h
  have hobs : (Model.addObserver (Model.addObserver m o) o).observers =
      m.observers ++ [o, o] := by
    simp [Model.addObserver]
  refine ⟨?_, ?_, ?_⟩
  · rw [hobs]
    simp [List.count_append, hcount, List.count_cons]
  · simp only [Model.set, Model.notifyObservers]
    rw [List.countP_cons_of_neg _ _ (by simp [isNotifyTo])]
    show ((Model.addObserver (Model.addObserver m o) o).observers.map
      (fun o2 => MEvent.notify o2 _ hint)).countP (isNotifyTo o) = 2
    rw [countP_isNotifyTo_map, hobs]
    simp [List.count_append, hcount, List.count_cons]
  · simp only [Model.removeObserver]
    rw [if_pos (by simp [hobs])]
    show ((Model.addObserver (Model.addObserver m o) o).observers.erase o).count o = 1
    rw [hobs, List.erase_append_right _ h, List.erase_cons_head]
    simp [List.count_append, hcount]

/-- Witness for C9 at a concrete model with one prior observer. -/
theorem duplicate_observer_witness :
    ORef.fnRef 5 ∉ (⟨"m", [ORef.fnRef 3], 0⟩ : Model Nat).observers ∧
    ((Model.addObserver (Model.addObserver (⟨"m", [ORef.fnRef 3], 0⟩ : Model Nat)
        (ORef.fnRef 5)) (ORef.fnRef 5)).observers.count (ORef.fnRef 5) = 2 ∧
      (Model.set (Model.addObserver (Model.addObserver (⟨"m", [ORef.fnRef 3], 0⟩ : Model Nat)
        (ORef.fnRef 5)) (ORef.fnRef 5)) (fun s => s) ()).2.countP
        (isNotifyTo (ORef.fnRef 5)) = 2 ∧
      (Model.removeObserver (Model.addObserver (Model.addObserver
        (⟨"m", [ORef.fnRef 3], 0⟩ : Model Nat) (ORef.fnRef 5)) (ORef.fnRef 5))
        (ORef.fnRef 5)).observers.count (ORef.fnRef 5) = 1) :=
  ⟨by decide,
    duplicate_observer_notified_twice_removed_once ⟨"m", [ORef.fnRef 3], 0⟩
      (ORef.fnRef 5) () (by decide)⟩

/-- C10: `Model.set` notifies every registered observer unconditionally on
each call, even when the mutator makes no change to the model state —
there is no change detection gating notification: the trace always carries
one notification per registered observer. -/
theorem set_notifies_observers_even_without_change
    (m : Model Nat) (f : Nat → Nat) (hint : Unit) (h : f m.state = m.state) :
    (Model.set m f hint).2 =
      MEvent.mutate m.state :: m.observers.map (fun o => MEvent.notify o m.state hint) ∧
    (Model.set m f hint).2.length = m.observers.length + 1 := by
  simp [Model.set, Model.notifyObservers, h]

/-- Witness for C10 at a concrete model and the identity mutator. -/
theorem set_notifies_witness :
    (fun (s : Nat) => s) (⟨"m", [ORef.fnRef 0], 5⟩ : Model Nat).state =
      (⟨"m", [ORef.fnRef 0], 5⟩ : Model Nat).state ∧
    ((Model.set (⟨"m", [ORef.fnRef 0], 5⟩ : Model Nat) (fun s => s) ()).2 =
        MEvent.mutate (⟨"m", [ORef.fnRef 0], 5⟩ : Model Nat).state ::
          (⟨"m", [ORef.fnRef 0], 5⟩ : Model Nat).observers.map
            (fun o => MEvent.notify o (⟨"m", [ORef.fnRef 0], 5⟩ : Model Nat).state ()) ∧
      (Model.set (⟨"m", [ORef.fnRef 0], 5⟩ : Model Nat) (fun s => s) ()).2.length =
        (⟨"m", [ORef.fnRef 0], 5⟩ : Model Nat).observers.length + 1) :=
  ⟨rfl, set_notifies_observers_even_without_change ⟨"m", [ORef.fnRef 0], 5⟩ (fun s => s) () rfl⟩

/-- C6 (evaluation at the failing input): start a stopped `ModelComponent`
(id 7) holding one model, then stop it.  `start()` subscribed the fresh
bound function `this.update.bind(this)` (identity `boundUpdate 7 0`), but
`stop()` calls `removeObserver(this)` with the component object itself, so
`indexOf` misses and the handler is still subscribed after `stop()`: the
model still notifies it on the next `set()`, contradicting the claimed
unsubscription. -/
theorem modelcomponent_stop_leaves_update_handler_subscribed :
    ((ModelComponent.stop (ModelComponent.start c6Comp c6Model).1
        (ModelComponent.start c6Comp c6Model).2).2).observers = [ORef.boundUpdate 7 0] ∧
    (Model.set ((ModelComponent.stop (ModelComponent.start c6Comp c6Model).1
        (ModelComponent.start c6Comp c6Model).2).2) (fun s => s) ()).2.countP
      (isNotifyTo (ORef.boundUpdate 7 0)) = 1 := ⟨rfl, rfl⟩

/-- Counterexample to C7 as stated: on an already-stopped component a
`stop()` call is not free of side effects — the `onStop` hook fires
(the hook call sits outside the `if (this.stopped === false)` guard). -/
theorem stop_on_stopped_counterexample :
    (compStop (Comp.node 0 true [])).2 ≠ [] := by decide

/-- C7 (amended): for a component already in the stopped state, `stop()`
leaves the stopped flag and all children unchanged and re-stops no child
(no child hook fires), but the component's own `onStop` hook does fire on
every call — the operation is not a complete no-op. -/
theorem stop_on_stopped_keeps_state_but_fires_hook (cid : Nat) (children : List Comp) :
    compStop (Comp.node cid true children) =
      (Comp.node cid true children, [CEvent.onStop cid]) := rfl

/-- C5: when the `_doRender` guards pass (not reentrant, not stopped, a
render-target id is configured and present in the document) and the
renderer output parses to more than one root element, `render()` fails
with the thrown error rather than silently picking the first root and
continuing. -/
theorem render_fails_on_multiple_roots (c : RenderComp)
    (h1 : c.rendering = false) (h2 : c.stopped = false) (h3 : c.htmlNodeId ≠ none)
    (h4 : c.nodeInDocument = true) (h5 : 1 < c.rendererRoots.length) :
    renderStep c = .failed "Rendering function MUST return a tree with a single root element" ∧
    ∀ root, renderStep c ≠ .rendered root := by
  have hmain : renderStep c =
      .failed "Rendering function MUST return a tree with a single root element" := by
    simp [renderStep, h1, h2, h3, h4, h5]
  exact ⟨hmain, fun root => by rw [hmain]; simp⟩

/-- Witness for C5 at a concrete component whose renderer yields two
sibling root elements. -/
theorem render_fails_witness :
    (⟨false, false, some "app", true, [.elem "div" [] [], .elem "span" [] []]⟩ :
        RenderComp).rendering = false ∧
    ((⟨false, false, some "app", true, [.elem "div" [] [], .elem "span" [] []]⟩ :
        RenderComp).rendererRoots.length > 1) ∧
    (renderStep ⟨false, false, some "app", true, [.elem "div" [] [], .elem "span" [] []]⟩ =
        .failed "Rendering function MUST return a tree with a single root element" ∧
      ∀ root, renderStep ⟨false, false, some "app", true,
        [.elem "div" [] [], .elem "span" [] []]⟩ ≠ .rendered root) :=
  ⟨rfl, by decide,
    render_fails_on_multiple_roots _ rfl rfl (by simp) rfl (by decide)⟩

namespace RouterComponent

theorem containsQuestion_eq_false (l : List Char) (h : ∀ c ∈ l, c ≠ '?') :
    containsQuestion l = false := by
  induction l with
  | nil => rfl
  | cons c rest ih =>
    simp only [containsQuestion, Bool.or_eq_false_iff]
    refine ⟨?_, ih fun d hd => h d (List.mem_cons_of_mem _ hd)⟩
    have := h c (List.mem_cons_self _ _)
    simpa using this

theorem replaceHashQuery_id (l : List Char) (h : ∀ c ∈ l, c ≠ '?') :
    replaceHashQuery l = l := by
  induction l with
  | nil => rfl
  | cons c rest ih =>
    rw [replaceHashQuery]
    rw [if_neg (by
      intro hcq
      rw [containsQuestion_eq_false rest (fun d hd => h d (List.mem_cons_of_mem _ hd))]
        at hcq
      exact absurd hcq.2 (by simp))]
    rw [ih fun d hd => h d (List.mem_cons_of_mem _ hd)]

theorem findParam_no_marker (pname : List Char) (l : List Char)
    (h : ∀ c ∈ l, c ≠ '?' ∧ c ≠ '&') : findParam pname l = none := by
  induction l with
  | nil => rfl
  | cons c rest ih =>
    have hc := h c (List.mem_cons_self _ _)
    rw [findParam]
    rw [if_neg (by
      rintro ⟨hq | ha, -⟩
      · exact hc.1 hq
      · exact hc.2 ha)]
    exact ih fun d hd => h d (List.mem_cons_of_mem _ hd)

end RouterComponent

/-- C8: `getRouteQueryParam` parses only the route-scoped query suffix of
the location fragment: against `#edit-post?id=42` the parameter `id`
resolves to `'42'`; against `#edit-post?id` (parameter present without a
value) it resolves to the empty string; and for every fragment containing
no `?` or `&` at all (such as `#edit-post`) every parameter name resolves
to `null`. -/
theorem getroutequeryparam_cases (hash pname : String)
    (h : ∀ c ∈ hash.toList, c ≠ '?' ∧ c ≠ '&') :
    RouterComponent.getRouteQueryParam pname hash = none ∧
    RouterComponent.getRouteQueryParam "id" "#edit-post?id=42" = some "42" ∧
    RouterComponent.getRouteQueryParam "id" "#edit-post?id" = some "" := by
  refine ⟨?_, rfl, rfl⟩
  simp only [RouterComponent.getRouteQueryParam]
  rw [RouterComponent.replaceHashQuery_id hash.toList (fun c hc => (h c hc).1),
    RouterComponent.findParam_no_marker pname.toList hash.toList h]

/-- Witness for C8 at the spec's concrete fragments. -/
theorem getroutequeryparam_witness :
    RouterComponent.getRouteQueryParam "id" "#edit-post" = none ∧
    RouterComponent.getRouteQueryParam "id" "#edit-post?id=42" = some "42" ∧
    RouterComponent.getRouteQueryParam "id" "#edit-post?id" = some "" :=
  getroutequeryparam_cases "#edit-post" "id" (by decide)
